import Mathlib

/-
  Verification of the glsl-lang preprocessor core, lang-pp/src/processor.rs.

  The development shallowly embeds the preprocessing engine: the conditional
  mask stack and Processor::handle_node, the file cache in Processor::parse,
  and the Expand iterator state machine, then proves or refutes the
  specified properties.

  The directive decoders (nodes.rs), the event constructors (event.rs) and
  the macro invocation engine (definition.rs) are external to the provided
  sources; where one of them is needed it is modelled from the spec and the
  corresponding definition carries a comment saying so.
-/

set_option autoImplicit false

namespace GlslPP

abbrev FileId := Nat

abbrev Path := String

abbrev IOErr := String

/-- Payload of a failed directive decode; the decoders live in nodes.rs and
their error detail is opaque to the processor, so it is a plain string here. -/
abbrev DirError := String

instance exceptDecEq {e a : Type} [DecidableEq e] [DecidableEq a] : DecidableEq (Except e a) := fun x y =>
  match x, y with
  | .ok v, .ok w =>
    if h : v = w then .isTrue (by rw [h]) else .isFalse (by intro hc; injection hc; contradiction)
  | .error v, .error w =>
    if h : v = w then .isTrue (by rw [h]) else .isFalse (by intro hc; injection hc; contradiction)
  | .ok _, .error _ => .isFalse (by intro hc; injection hc)
  | .error _, .ok _ => .isFalse (by intro hc; injection hc)

/-- Terminal token of the preprocessor CST: kind name, text, and the end
offset of its text range. -/
structure Token where
  kind : String
  text : String
  endPos : Nat
deriving DecidableEq, Repr

/-- Error reported by the external CST builder, with its start offset.
The builder contract says the error list is sorted by start position. -/
structure ParserError where
  message : String
  start : Nat
deriving DecidableEq, Repr

inductive Profile
  | core
  | compatibility
  | es
deriving DecidableEq, Repr

structure Version where
  number : Nat
  profile : Option Profile
deriving DecidableEq, Repr

def defaultVersion : Version := { number := 110, profile := Option.none }

inductive Behavior
  | require
  | enable
  | warn
  | disable
deriving DecidableEq, Repr

/-- Modelled from the spec: Behavior::is_active lives in nodes.rs which is
not among the provided sources; section 9 of the spec records that only
disable turns an include extension off, so a behavior is active unless it
is disable. -/
def Behavior.isActive : Behavior → Bool
  | .disable => false
  | _ => true

inductive ExtensionName
  | all
  | specific (name : String)
deriving DecidableEq, Repr

structure Extension where
  name : ExtensionName
  behavior : Behavior
deriving DecidableEq, Repr

def Extension.disableExt (n : ExtensionName) : Extension :=
  { name := n, behavior := .disable }

def glArbShadingLanguageInclude : ExtensionName :=
  .specific "GL_ARB_shading_language_include"

def glGoogleIncludeDirective : ExtensionName :=
  .specific "GL_GOOGLE_include_directive"

/-- Decoded #define directive record: name, optional parameter list for the
function-like form, replacement token list, and the protected flag. -/
structure Define where
  name : String
  params : Option (List String)
  replacement : List String
  protected_flag : Bool
deriving DecidableEq, Repr

def Define.object (name : String) (replacement : List String) (prot : Bool) : Define :=
  { name := name, params := Option.none, replacement := replacement, protected_flag := prot }

inductive Definition
  | regular (d : Define) (file : FileId)
  | line
  | file
  | version
deriving DecidableEq, Repr

def Definition.name : Definition → String
  | .regular d _ => d.name
  | .line => "__LINE__"
  | .file => "__FILE__"
  | .version => "__VERSION__"

/-- Modelled from the spec: Definition::protected lives in definition.rs
which is not among the provided sources; section 3 of the spec says the
builtin Line, File and Version definitions are always protected, while a
Regular definition carries the protected flag of its Define record. -/
def Definition.protectedFlag : Definition → Bool
  | .regular d _ => d.protected_flag
  | .line => true
  | .file => true
  | .version => true

inductive IncludeMode
  | none
  | arbInclude
  | googleInclude
deriving DecidableEq, Repr

/-- First-match association list lookup, the shallow model of HashMap::get. -/
def alookup {α β : Type} [DecidableEq α] (k : α) : List (α × β) → Option β
  | [] => Option.none
  | (k', v) :: rest => if k' = k then some v else alookup k rest

/-- HashMap::insert and the occupied-entry overwrite: replace the first
binding of the key, or append a fresh binding. -/
def defsInsert (k : String) (v : Definition) : List (String × Definition) → List (String × Definition)
  | [] => [(k, v)]
  | (k', v') :: rest => if k' = k then (k, v) :: rest else (k', v') :: defsInsert k v rest

/-- HashMap::remove: drop the first binding of the key. -/
def defsRemove (k : String) : List (String × Definition) → List (String × Definition)
  | [] => []
  | (k', v') :: rest => if k' = k then rest else (k', v') :: defsRemove k rest

structure ProcessorState where
  extension_stack : List Extension
  include_mode : IncludeMode
  definitions : List (String × Definition)
  version : Version
deriving DecidableEq, Repr

def initialDefinitions : List (String × Definition) :=
  [("GL_core_profile", .regular (Define.object "GL_core_profile" ["1"] true) 0),
   ("__LINE__", .line),
   ("__FILE__", .file),
   ("__VERSION__", .version)]

/-- ProcessorState::default from processor.rs. -/
def initialState : ProcessorState :=
  { extension_stack := [Extension.disableExt .all],
    include_mode := .none,
    definitions := initialDefinitions,
    version := defaultVersion }

/-- The ident.starts_with of the source; written over the character list so
that the kernel can evaluate it. -/
def startsWithGL (s : String) : Bool :=
  match s.data with
  | 'G' :: 'L' :: '_' :: _ => true
  | _ => false

/-- Conditional mask frame, IfState in processor.rs. The stack is modelled
with the top frame at the head of the list. -/
inductive IfState
  | none
  | active (else_seen : Bool)
  | one (else_seen : Bool)
deriving DecidableEq, Repr

def IfState.isActiveFrame : IfState → Bool
  | .active _ => true
  | .none => false
  | .one _ => false

/-- The recomputation mask_stack.last().map(is Active).unwrap_or(true) of
the source, with the head of the list as the top of the stack. -/
def maskFromStack : List IfState → Bool
  | [] => true
  | top :: _ => top.isActiveFrame

/-- A CST child node of one directive, carrying the result of its typed
decode. The decoders are the nodes.rs collaborator, external to the
provided sources, so a node is modelled together with its decode result. -/
inductive Node
  | ppEmpty
  | ppVersion (d : Except DirError Version)
  | ppExtension (d : Except DirError Extension)
  | ppDefine (d : Except DirError Define)
  | ppIfDef (d : Except DirError String)
  | ppIfNDef (d : Except DirError String)
  | ppElse
  | ppEndIf
  | ppUndef (d : Except DirError String)
  | ppError (d : Except DirError String)
  | ppIf
  | ppInclude
  | unknown (kind : String)
deriving DecidableEq, Repr

inductive Directive
  | version (v : Version)
  | extension (e : Extension)
  | define (d : Define)
  | ifDef (ident : String)
  | ifNDef (ident : String)
  | elseDir
  | endIf
  | undef (ident : String)
  | errorDir (message : String)
deriving DecidableEq, Repr

inductive ProcessingErrorKind
  | protectedDefine (ident : String) (is_undef : Bool)
  | extraElse
  | extraEndIf
  | errorDirective (message : String)
  | includeNotEnabled
deriving DecidableEq, Repr

/-- Modelled from the spec: the error taxonomy of event.rs is not among the
provided sources; section 7 lists the processing errors, the parser errors
surfaced from the builder, the macro expansion errors, and Unhandled for a
recognized-but-unimplemented construct, which is what ErrorKind::unhandled
constructs. -/
inductive ErrorKind
  | processing (e : ProcessingErrorKind)
  | unhandled (node : Node)
  | parseError (e : ParserError)
  | expansion (message : String)
deriving DecidableEq, Repr

inductive Event
  | enterFile (file_id : FileId) (path : Path)
  | token (t : Token)
  | directive (d : Except DirError Directive)
  | error (kind : ErrorKind) (file : FileId)
deriving DecidableEq, Repr

/-- Processor::handle_node of processor.rs: given the current processor
state, emit bit and mask stack, handle one directive node and return the
emitted events together with the updated state, emit bit and stack. -/
def handleNode (st : ProcessorState) (maskActive : Bool) (maskStack : List IfState)
    (node : Node) (currentFile : FileId) :
    List Event × ProcessorState × Bool × List IfState :=
  match node with
  | .ppEmpty => ([], st, maskActive, maskStack)
  | .ppVersion d =>
    if maskActive then
      match d with
      | .ok v => ([.directive (.ok (.version v))], { st with version := v }, maskActive, maskStack)
      | .error e => ([.directive (.error e)], st, maskActive, maskStack)
    else ([], st, maskActive, maskStack)
  | .ppExtension d =>
    if maskActive then
      match d with
      | .ok ext =>
        let st1 := { st with extension_stack := ext :: st.extension_stack }
        let target : Option IncludeMode :=
          if ext.name = glArbShadingLanguageInclude then some .arbInclude
          else if ext.name = glGoogleIncludeDirective then some .googleInclude
          else Option.none
        let st2 :=
          match target with
          | some t =>
            if ext.behavior.isActive then { st1 with include_mode := t }
            else { st1 with include_mode := .none }
          | Option.none => st1
        ([.directive (.ok (.extension ext))], st2, maskActive, maskStack)
      | .error e => ([.directive (.error e)], st, maskActive, maskStack)
    else ([], st, maskActive, maskStack)
  | .ppDefine d =>
    if maskActive then
      match d with
      | .ok def_ =>
        if startsWithGL def_.name then
          ([.directive (.ok (.define def_)),
            .error (.processing (.protectedDefine def_.name false)) currentFile],
           st, maskActive, maskStack)
        else
          match alookup def_.name st.definitions with
          | some existing =>
            if existing.protectedFlag then
              ([.directive (.ok (.define def_)),
                .error (.processing (.protectedDefine def_.name false)) currentFile],
               st, maskActive, maskStack)
            else
              ([.directive (.ok (.define def_))],
               { st with definitions := defsInsert def_.name (.regular def_ currentFile) st.definitions },
               maskActive, maskStack)
          | Option.none =>
            ([.directive (.ok (.define def_))],
             { st with definitions := defsInsert def_.name (.regular def_ currentFile) st.definitions },
             maskActive, maskStack)
      | .error e => ([.directive (.error e)], st, maskActive, maskStack)
    else ([], st, maskActive, maskStack)
  | .ppIfDef d =>
    if maskActive then
      match d with
      | .ok ident =>
        ([.directive (.ok (.ifDef ident))], st,
         (alookup ident st.definitions).isSome, IfState.active false :: maskStack)
      | .error e => ([.directive (.error e)], st, maskActive, maskStack)
    else ([], st, maskActive, IfState.none :: maskStack)
  | .ppIfNDef d =>
    if maskActive then
      match d with
      | .ok ident =>
        ([.directive (.ok (.ifNDef ident))], st,
         !(alookup ident st.definitions).isSome, IfState.active false :: maskStack)
      | .error e => ([.directive (.error e)], st, maskActive, maskStack)
    else ([], st, maskActive, IfState.none :: maskStack)
  | .ppElse =>
    match maskStack with
    | [] => ([.error (.processing .extraElse) currentFile], st, maskActive, [])
    | top :: rest =>
      match top with
      | .none =>
        ([.directive (.ok .elseDir)], st, maskFromStack rest, IfState.active true :: rest)
      | .active es =>
        if es then ([.error (.processing .extraElse) currentFile], st, maskActive, rest)
        else ([.directive (.ok .elseDir)], st, false, IfState.one true :: rest)
      | .one es =>
        if es then ([.error (.processing .extraElse) currentFile], st, maskActive, rest)
        else ([.directive (.ok .elseDir)], st, false, IfState.one true :: rest)
  | .ppEndIf =>
    match maskStack with
    | [] => ([.error (.processing .extraEndIf) currentFile], st, maskActive, [])
    | _ :: rest =>
      ((if maskFromStack rest then [.directive (.ok .endIf)] else []), st, maskFromStack rest, rest)
  | .ppUndef d =>
    if maskActive then
      match d with
      | .ok ident =>
        if startsWithGL ident then
          ([.directive (.ok ( .undef ident)),
            .error (.processing (.protectedDefine ident true)) currentFile],
           st, maskActive, maskStack)
        else
          match alookup ident st.definitions with
          | some def_ =>
            if def_.protectedFlag then
              ([.directive (.ok ( .undef ident)),
                .error (.processing (.protectedDefine ident true)) currentFile],
               st, maskActive, maskStack)
            else
              ([.directive (.ok ( .undef ident))],
               { st with definitions := defsRemove ident st.definitions }, maskActive, maskStack)
          | Option.none => ([.directive (.ok ( .undef ident))], st, maskActive, maskStack)
      | .error e => ([.directive (.error e)], st, maskActive, maskStack)
    else ([], st, maskActive, maskStack)
  | .ppError d =>
    if maskActive then
      match d with
      | .ok msg =>
        ([.directive (.ok (.errorDir msg)),
          .error (.processing (.errorDirective msg)) currentFile],
         st, maskActive, maskStack)
      | .error e => ([.directive (.error e)], st, maskActive, maskStack)
    else ([], st, maskActive, maskStack)
  | .ppIf => ([], st, false, IfState.none :: maskStack)
  | .ppInclude =>
    if maskActive then ([.error (.unhandled .ppInclude) currentFile], st, maskActive, maskStack)
    else ([], st, maskActive, maskStack)
  | .unknown k =>
    if maskActive then ([.error (.unhandled (.unknown k)) currentFile], st, maskActive, maskStack)
    else ([], st, maskActive, maskStack)

/-- A CST child: a directive node or a terminal token, with the end offset
of its text range. -/
inductive Element
  | node (n : Node) (endPos : Nat)
  | token (t : Token)
deriving DecidableEq, Repr

def Element.endPos : Element → Nat
  | .node _ e => e
  | .token t => t.endPos

/-- Result of the external CST builder for one file: the children of the
root node and the parser errors, sorted by start position. -/
structure Ast where
  elements : List Element
  errors : List ParserError
deriving DecidableEq, Repr

/-- The three caches of the Processor struct. -/
structure ProcFiles where
  file_cache : List (FileId × Ast)
  file_ids : List (Path × FileId)
  canonical_paths : List (Path × Path)
deriving DecidableEq, Repr

def emptyFiles : ProcFiles :=
  { file_cache := [], file_ids := [], canonical_paths := [] }

/-- The filesystem collaborator of section 6. -/
structure FS where
  canonicalize : Path → Except IOErr Path
  read : Path → Except IOErr String

/-- One observable filesystem invocation, recorded so that a theorem can
state that a cached parse performs no filesystem call. -/
inductive FsOp
  | canonicalize (p : Path)
  | read (p : Path)
deriving DecidableEq, Repr

def u32M : Nat := 4294967296

/-- Third stage of Processor::parse: consult the file cache, reading and
parsing the file on a miss. P is the external CST builder. -/
def parseCached (fs : FS) (P : String → Ast) (st : ProcFiles) (cp : Path) (fid : FileId)
    (log : List FsOp) : Except IOErr (FileId × Ast) × ProcFiles × List FsOp :=
  match alookup fid st.file_cache with
  | some ast => (.ok (fid, ast), st, log)
  | Option.none =>
    match fs.read cp with
    | .error e => (.error e, st, log ++ [.read cp])
    | .ok input =>
      (.ok (fid, P input), { st with file_cache := (fid, P input) :: st.file_cache },
       log ++ [.read cp])

/-- Second stage of Processor::parse: find or allocate the FileId of the
canonical path. The fresh id is file_ids.len() as u32 + 1 of the source,
with the u32 conversion and addition taken modulo 2 to the 32. -/
def parseWithCanonical (fs : FS) (P : String → Ast) (st : ProcFiles) (cp : Path)
    (log : List FsOp) : Except IOErr (FileId × Ast) × ProcFiles × List FsOp :=
  match alookup cp st.file_ids with
  | some fid => parseCached fs P st cp fid log
  | Option.none =>
    let fid := (st.file_ids.length % u32M + 1) % u32M
    parseCached fs P { st with file_ids := (cp, fid) :: st.file_ids } cp fid log

/-- Processor::parse of processor.rs: canonicalize the input path through
the memo table, assign a FileId, and return the cached CST or read and
parse the file. The returned list records the filesystem calls made. -/
def Processor.parse (fs : FS) (P : String → Ast) (st : ProcFiles) (path : Path) :
    Except IOErr (FileId × Ast) × ProcFiles × List FsOp :=
  match alookup path st.canonical_paths with
  | some cp => parseWithCanonical fs P st cp []
  | Option.none =>
    match fs.canonicalize path with
    | .error e => (.error e, st, [.canonicalize path])
    | .ok cp =>
      parseWithCanonical fs P
        { st with canonical_paths := (path, cp) :: st.canonical_paths } cp [.canonicalize path]

/-- The canonical path Processor::parse resolves the input path to: the
memoized entry, or the canonicalize result of the filesystem. -/
def canonicalOf (fs : FS) (st : ProcFiles) (path : Path) : Except IOErr Path :=
  match alookup path st.canonical_paths with
  | some cp => .ok cp
  | Option.none => fs.canonicalize path

/-- A ProcFiles table reachable by a processor: every assigned FileId is
non-zero and the id counter has not wrapped the u32 range. -/
def wfFiles (st : ProcFiles) : Prop :=
  (∀ pr ∈ st.file_ids, pr.2 ≠ 0) ∧ st.file_ids.length + 1 < u32M

/-- A recognized macro invocation, produced by the invocation engine of
definition.rs (external to the provided sources): the definition and the
collected argument token lists, if the function-like form applies. -/
structure Invocation where
  definition : Definition
  args : Option (List (List Token))

/-- Signature of MacroInvocation::parse of definition.rs: from a matched
definition, the token, and the remaining iterator, either no invocation,
or an invocation together with the advanced iterator, or an expansion
error. It reads the state only through immutable data, which the theorems
quantify over. -/
abbrev InvocationParseFn :=
  Definition → Token → List Element → Except IOErr (Option (Invocation × List Element))

/-- Signature of MacroInvocation::substitute of definition.rs: it takes the
processor state by shared reference, so it is a pure function from the
state to events or an error. -/
abbrev SubstituteFn :=
  Invocation → ProcessorState → Except IOErr (List Event)

/-- Unescaped::new(token.text()).to_string() of the source removes line
continuations; the lexer collaborator guarantees plain identifiers are
unchanged, and tokens are modelled with their unescaped text. -/
def unescaped (s : String) : String := s

/-- The internal states of the Expand iterator, ExpandState in
processor.rs. -/
inductive EState
  | init (path : Path)
  | iterate (currentFile : FileId) (elements : List Element) (errors : List ParserError)
  | pendingOne (currentFile : FileId) (elements : List Element) (errors : List ParserError)
      (el : Element)
  | pendingEvents (currentFile : FileId) (elements : List Element) (errors : List ParserError)
      (events : List Event)
  | expandedTokens (currentFile : FileId) (elements : List Element) (errors : List ParserError)
      (events : List Event)
  | complete

/-- The Expand iterator: the borrowed processor (its caches and current
state), the conditional mask, and the iteration state. -/
structure ExpandData where
  files : ProcFiles
  procState : ProcessorState
  maskStack : List IfState
  maskActive : Bool
  estate : EState

/-- Expand::handle_token of processor.rs: try a macro substitution on an
identifier token, otherwise emit it verbatim. -/
def handleToken (pf : InvocationParseFn) (sf : SubstituteFn) (e : ExpandData) (tok : Token)
    (currentFile : FileId) (elements : List Element) (errors : List ParserError) :
    Option Event × ExpandData :=
  match (if tok.kind = "IDENT_KW"
         then alookup (unescaped tok.text) e.procState.definitions
         else Option.none) with
  | some defn =>
    match pf defn tok elements with
    | .ok (some (inv, newElements)) =>
      match sf inv e.procState with
      | .ok evs =>
        (Option.none, { e with estate := .expandedTokens currentFile newElements errors evs })
      | .error err =>
        let evts : List Event := [Event.error (.expansion err) currentFile, Event.token tok]
        (Option.none, { e with estate := .pendingEvents currentFile elements errors evts })
    | .ok Option.none =>
      (some (Event.token tok), { e with estate := .iterate currentFile elements errors })
    | .error err =>
      let evts : List Event := [Event.error (.expansion err) currentFile, Event.token tok]
      (Option.none, { e with estate := .pendingEvents currentFile elements errors evts })
  | Option.none =>
    (some (Event.token tok), { e with estate := .iterate currentFile elements errors })

/-- Expand::handle_node_or_token of processor.rs. -/
def handleNodeOrToken (pf : InvocationParseFn) (sf : SubstituteFn) (e : ExpandData)
    (currentFile : FileId) (elements : List Element) (errors : List ParserError)
    (el : Element) : Option Event × ExpandData :=
  match el with
  | .node n _ =>
    match handleNode e.procState e.maskActive e.maskStack n currentFile with
    | (evs, st', m', stk') =>
      (Option.none,
       { e with procState := st', maskActive := m', maskStack := stk',
                estate := .pendingEvents currentFile elements errors evs })
  | .token t =>
    if e.maskActive then handleToken pf sf e t currentFile elements errors
    else (Option.none, { e with estate := .iterate currentFile elements errors })

inductive IoEvent
  | event (e : Event)
  | ioError (e : IOErr)
deriving DecidableEq, Repr

/-- Outcome of one turn of the loop in the next method of Expand: an event
is returned, the loop continues with a new state, or iteration ends. -/
inductive StepOut
  | emit (ev : IoEvent) (st : ExpandData)
  | cont (st : ExpandData)
  | stop

def stepHandle (pf : InvocationParseFn) (sf : SubstituteFn) (e : ExpandData)
    (currentFile : FileId) (elements : List Element) (errors : List ParserError)
    (el : Element) : StepOut :=
  match handleNodeOrToken pf sf e currentFile elements errors el with
  | (some ev, e') => .emit (.event ev) e'
  | (Option.none, e') => .cont e'

/-- One turn of the loop in the next method of Expand, processor.rs lines
650 to 771. -/
def expandStep (fs : FS) (P : String → Ast) (pf : InvocationParseFn) (sf : SubstituteFn)
    (e : ExpandData) : StepOut :=
  match e.estate with
  | .init path =>
    match Processor.parse fs P e.files path with
    | (.ok (fid, ast), files', _) =>
      .emit (.event (.enterFile fid path))
        { e with files := files', estate := .iterate fid ast.elements ast.errors }
    | (.error err, files', _) =>
      .emit (.ioError err) { e with files := files', estate := .complete }
  | .iterate cf els errs =>
    match els with
    | [] => .stop
    | el :: rest =>
      match errs with
      | [] => stepHandle pf sf e cf rest [] el
      | firstErr :: _ =>
        if el.endPos ≥ firstErr.start then
          let popped := (errs.getLast?).getD firstErr
          let errs' := errs.dropLast
          if e.maskActive then
            .emit (.event (.error (.parseError popped) cf))
              { e with estate := .pendingOne cf rest errs' el }
          else
            stepHandle pf sf e cf rest errs' el
        else
          stepHandle pf sf e cf rest errs el
  | .pendingOne cf els errs el => stepHandle pf sf e cf els errs el
  | .pendingEvents cf els errs evs =>
    match evs with
    | [] => .cont { e with estate := .iterate cf els errs }
    | ev :: restEvs => .emit (.event ev) { e with estate := .pendingEvents cf els errs restEvs }
  | .expandedTokens cf els errs evs =>
    match evs with
    | [] => .cont { e with estate := .iterate cf els errs }
    | ev :: restEvs => .emit (.event ev) { e with estate := .expandedTokens cf els errs restEvs }
  | .complete => .stop

/-- Run the Expand iterator to completion, collecting the emitted events;
Option.none when the fuel does not reach the end of iteration. -/
def expandRun (fs : FS) (P : String → Ast) (pf : InvocationParseFn) (sf : SubstituteFn) :
    Nat → ExpandData → Option (List IoEvent)
  | 0, _ => Option.none
  | Nat.succ fuel, e =>
    match expandStep fs P pf sf e with
    | .stop => some []
    | .emit ev e' => (expandRun fs P pf sf fuel e').map (fun l => ev :: l)
    | .cont e' => expandRun fs P pf sf fuel e'

def fsEmpty : FS := { canonicalize := fun _ => .error "io", read := fun _ => .error "io" }

def astEmpty : Ast := { elements := [], errors := [] }

def parseNone : String → Ast := fun _ => astEmpty

def noInvocation : InvocationParseFn := fun _ _ _ => .ok Option.none

def noSubstitution : SubstituteFn := fun _ _ => .ok []

/-- An Expand iterator positioned at the start of a parsed file with id 1,
in the initial processor state. -/
def mkExpand (els : List Element) (errs : List ParserError) : ExpandData :=
  { files := emptyFiles, procState := initialState, maskStack := [], maskActive := true,
    estate := .iterate 1 els errs }

/-- Process a file: run the iterator on the parsed children and parser
errors of a single file, with no macro invocations recognized. -/
def runScenario (els : List Element) (errs : List ParserError) (fuel : Nat) :
    Option (List IoEvent) :=
  expandRun fsEmpty parseNone noInvocation noSubstitution fuel (mkExpand els errs)

def isEnterFile : IoEvent → Bool
  | .event (.enterFile _ _) => true
  | _ => false

/-- Children of the scenario-3 input, an ifdef-else-endif block guarded by
the undefined identifier A, with the tokens X and Y in its two groups. -/
def c1Elements : List Element :=
  [.node (.ppIfDef (.ok "A")) 8,
   .token { kind := "IDENT_KW", text := "X", endPos := 10 },
   .node .ppElse 16,
   .token { kind := "IDENT_KW", text := "Y", endPos := 18 },
   .node .ppEndIf 25]

/-- C1: for the ifdef-else-endif input with A undefined, the spec expects
the token Y to be emitted. The code instead emits no token at all: the
ifdef pushes an Active frame even though its predicate is false, so the
else arm masks the second group as well, and only the three directive
events appear. This evaluates the driver on the failing input. -/
theorem c1_ifdef_else_scenario :
    runScenario c1Elements [] 32
      = some [.event (.directive (.ok (.ifDef "A"))),
              .event (.directive (.ok .elseDir)),
              .event (.directive (.ok .endIf))] := by
  decide

/-- C2: invariant I6 fails on the code. Processing an ifdef whose predicate
is false from an emit-active state leaves the emit bit false while the one
frame on the mask stack is Active, so the emit bit is not true even though
every frame is Active. This evaluates handle_node at the failing input. -/
theorem c2_emit_bit_stack_mismatch :
    handleNode initialState true [] (.ppIfDef (.ok "A")) 1
      = ([.directive (.ok (.ifDef "A"))], initialState, false, [.active false])
    ∧ (IfState.active false).isActiveFrame = true := by
  decide

def c3Extension : Extension := { name := glGoogleIncludeDirective, behavior := .enable }

/-- Children of the scenario-6 parent file: the enabling extension
directive followed by the include directive. -/
def c3Elements : List Element :=
  [.node (.ppExtension (.ok c3Extension)) 40, .node .ppInclude 60]

/-- C3 counterexample: for the scenario-6 input the claim expects the
include directive event, EnterFile for sub.glsl, the child events and the
resumed parent. The code instead emits the extension directive and then an
Unhandled error for the include node; no EnterFile event for the included
file appears anywhere in the stream. -/
theorem c3_include_scenario_counterexample :
    runScenario c3Elements [] 32
      = some [.event (.directive (.ok (.extension c3Extension))),
              .event (.error (.unhandled .ppInclude) 1)]
    ∧ ((runScenario c3Elements [] 32).getD []).all (fun ev => !(isEnterFile ev)) = true := by
  decide

/-- C3 amended: no include ever succeeds, so the ordering property is
vacuous. Handling an include node emits one Unhandled error when the emit
bit is active and nothing otherwise, changes no state, and in particular
never produces an EnterFile event for an included file. -/
theorem c3_include_never_enters_file (st : ProcessorState) (m : Bool) (stack : List IfState)
    (cf : FileId) :
    handleNode st m stack .ppInclude cf
      = ((if m then [.error (.unhandled .ppInclude) cf] else []), st, m, stack) := by
  cases m <;> simp [handleNode]

/-- C4 counterexample: in the initial state the include mode is None and
the emit bit active, yet handling an include node produces an Unhandled
error event, not an IncludeNotEnabled error event. -/
theorem c4_include_mode_none_counterexample :
    initialState.include_mode = IncludeMode.none
    ∧ handleNode initialState true [] .ppInclude 1
        = ([.error (.unhandled .ppInclude) 1], initialState, true, [])
    ∧ Event.error (.processing .includeNotEnabled) 1
        ∉ [Event.error (ErrorKind.unhandled .ppInclude) 1] := by
  decide

/-- C4 amended: when the include mode is None and the emit bit active,
handling an include node produces an Unhandled error event; the fallback
arm never consults the include mode, so every mode behaves the same. -/
theorem c4_include_mode_none_unhandled (st : ProcessorState) (stack : List IfState)
    (cf : FileId) (_h : st.include_mode = IncludeMode.none) :
    handleNode st true stack .ppInclude cf
      = ([.error (.unhandled .ppInclude) cf], st, true, stack) := by
  simp [handleNode]

theorem c4_include_mode_none_unhandled_witness :
    initialState.include_mode = IncludeMode.none
    ∧ handleNode initialState true [] .ppInclude 1
        = ([.error (.unhandled .ppInclude) 1], initialState, true, []) :=
  ⟨by decide, c4_include_mode_none_unhandled initialState [] 1 (by decide)⟩

/-- An identifier is protected for the definition table: it starts with
GL_, or its current definition carries the protected flag; the builtins
and GL_core_profile are protected entries of the initial table. -/
def protectedIn (st : ProcessorState) (name : String) : Prop :=
  startsWithGL name = true
  ∨ ∃ d, alookup name st.definitions = some d ∧ d.protectedFlag = true

/-- C5: defining or undefining a protected identifier in an emit-active
state leaves the whole processor state, in particular the definition
table, unchanged, and emits exactly the directive event followed by one
ProtectedDefine error event with is_undef set accordingly. -/
theorem c5_protected_define_undef (st : ProcessorState) (stack : List IfState) (cf : FileId)
    (d : Define) (n : String) (hd : protectedIn st d.name) (hn : protectedIn st n) :
    handleNode st true stack (.ppDefine (.ok d)) cf
      = ([.directive (.ok (.define d)),
          .error (.processing (.protectedDefine d.name false)) cf], st, true, stack)
    ∧ handleNode st true stack ( .ppUndef (.ok n)) cf
      = ([.directive (.ok ( .undef n)),
          .error (.processing (.protectedDefine n true)) cf], st, true, stack) := by
  constructor
  · by_cases hgl : startsWithGL d.name = true
    · simp [handleNode, hgl]
    · rcases hd with h | ⟨pd, hl, hp⟩
      · exact absurd h hgl
      · simp [handleNode, hgl, hl, hp]
  · by_cases hgl : startsWithGL n = true
    · simp [handleNode, hgl]
    · rcases hn with h | ⟨pd, hl, hp⟩
      · exact absurd h hgl
      · simp [handleNode, hgl, hl, hp]

def defineGLX : Define := Define.object "GL_X" ["1"] false

def lineBuiltinName : String := "__LINE__"

theorem c5_protected_define_undef_witness :
    protectedIn initialState defineGLX.name
    ∧ protectedIn initialState "__LINE__"
    ∧ handleNode initialState true [] (.ppDefine (.ok defineGLX)) 1
        = ([.directive (.ok (.define defineGLX)),
            .error (.processing (.protectedDefine "GL_X" false)) 1], initialState, true, [])
    ∧ handleNode initialState true [] ( .ppUndef (.ok "__LINE__")) 1
        = ([.directive (.ok ( .undef lineBuiltinName)),
            .error (.processing (.protectedDefine "__LINE__" true)) 1], initialState, true, []) := by
  refine ⟨Or.inl (by decide), Or.inr ⟨.line, by decide, by decide⟩, ?_, ?_⟩
  · exact (c5_protected_define_undef initialState [] 1 defineGLX "__LINE__"
      (Or.inl (by decide)) (Or.inr ⟨.line, by decide, by decide⟩)).1
  · exact (c5_protected_define_undef initialState [] 1 defineGLX "__LINE__"
      (Or.inl (by decide)) (Or.inr ⟨.line, by decide, by decide⟩)).2

def c6Elements : List Element :=
  [.token { kind := "DIGITS", text := "t1", endPos := 10 },
   .token { kind := "DIGITS", text := "t2", endPos := 20 }]

/-- Two parser errors, sorted by start position as the CST builder
contract requires, both positioned before the first token. -/
def c6Errors : List ParserError :=
  [{ message := "e1", start := 0 }, { message := "e2", start := 5 }]

/-- C6: the claim expects both parser errors before the first token, in
source order. The code checks errors.first() but removes with
errors.pop(), and flushes at most one error per child, so the later error
e2 is emitted first and the earlier error e1 only after the first token
event. This evaluates the driver on the failing input. -/
theorem c6_parser_error_order :
    runScenario c6Elements c6Errors 32
      = some [.event (.error (.parseError { message := "e2", start := 5 }) 1),
              .event (.token { kind := "DIGITS", text := "t1", endPos := 10 }),
              .event (.error (.parseError { message := "e1", start := 0 }) 1),
              .event (.token { kind := "DIGITS", text := "t2", endPos := 20 })] := by
  decide

/-- C7: with the emit bit false, every error event handle_node emits is
ExtraElse or ExtraEndIf; and the malformed-conditional errors themselves
are reported regardless of the emit bit: an else on an empty stack or on a
frame whose else_seen is set emits ExtraElse, an endif on an empty stack
emits ExtraEndIf. -/
theorem c7_error_suppression (st : ProcessorState) (stack : List IfState) (cf : FileId)
    (node : Node) :
    (∀ ek f, Event.error ek f ∈ (handleNode st false stack node cf).1
        → ek = ErrorKind.processing .extraElse ∨ ek = ErrorKind.processing .extraEndIf)
    ∧ (∀ m : Bool, (handleNode st m [] .ppElse cf).1
        = [.error (.processing .extraElse) cf])
    ∧ (∀ (m : Bool) (rest : List IfState),
        (handleNode st m (IfState.active true :: rest) .ppElse cf).1
          = [.error (.processing .extraElse) cf])
    ∧ (∀ (m : Bool) (rest : List IfState),
        (handleNode st m (IfState.one true :: rest) .ppElse cf).1
          = [.error (.processing .extraElse) cf])
    ∧ (∀ m : Bool, (handleNode st m [] .ppEndIf cf).1
        = [.error (.processing .extraEndIf) cf]) := by
  refine ⟨?_, ?_, ?_, ?_, ?_⟩
  · intro ek f h
    cases node with
    | ppEmpty => simp [handleNode] at h
    | ppVersion d => simp [handleNode] at h
    | ppExtension d => simp [handleNode] at h
    | ppDefine d => simp [handleNode] at h
    | ppIfDef d => simp [handleNode] at h
    | ppIfNDef d => simp [handleNode] at h
    | ppElse =>
      cases stack with
      | nil => simp [handleNode] at h; simp [h]
      | cons top rest =>
        cases top with
        | none => simp [handleNode] at h
        | active es => cases es <;> simp [handleNode] at h <;> simp [h]
        | one es => cases es <;> simp [handleNode] at h <;> simp [h]
    | ppEndIf =>
      cases stack with
      | nil => simp [handleNode] at h; simp [h]
      | cons top rest =>
        by_cases hm : maskFromStack rest = true <;> simp [handleNode, hm] at h
    | ppUndef d => simp [handleNode] at h
    | ppError d => simp [handleNode] at h
    | ppIf => simp [handleNode] at h
    | ppInclude => simp [handleNode] at h
    | unknown k => simp [handleNode] at h
  · intro m; simp [handleNode]
  · intro m rest; simp [handleNode]
  · intro m rest; simp [handleNode]
  · intro m; simp [handleNode]

theorem c7_error_suppression_witness :
    Event.error (ErrorKind.processing .extraEndIf) 1
      ∈ (handleNode initialState false [] .ppEndIf 1).1
    ∧ (ErrorKind.processing .extraEndIf = ErrorKind.processing .extraElse
       ∨ ErrorKind.processing .extraEndIf = ErrorKind.processing .extraEndIf) :=
  ⟨by decide,
   (c7_error_suppression initialState [] 1 .ppEndIf).1
     (ErrorKind.processing .extraEndIf) 1 (by decide)⟩

/-- C9: handle_token borrows the processor state immutably for the lookup,
MacroInvocation::parse and substitute, so whatever the invocation engine
does, the definition table after handle_token equals the table before it. -/
theorem c9_handle_token_preserves_definitions (pf : InvocationParseFn) (sf : SubstituteFn)
    (e : ExpandData) (tok : Token) (cf : FileId) (els : List Element)
    (errs : List ParserError) :
    (handleToken pf sf e tok cf els errs).2.procState.definitions
      = e.procState.definitions := by
  unfold handleToken
  repeat' split
  all_goals rfl

/-- C10: for an endif on a non-empty mask stack, the EndIf directive event
is emitted exactly when the emit bit recomputed from the popped stack is
true, while a well-formed else emits its Else directive event whatever the
emit bit is, for each of the three frame shapes with else_seen unset. -/
theorem c10_endif_event_iff_recomputed (st : ProcessorState) (m : Bool) (top : IfState)
    (rest : List IfState) (cf : FileId) :
    handleNode st m (top :: rest) .ppEndIf cf
      = ((if maskFromStack rest then [.directive (.ok .endIf)] else []), st,
         maskFromStack rest, rest)
    ∧ (handleNode st m (IfState.active false :: rest) .ppElse cf).1
        = [.directive (.ok .elseDir)]
    ∧ (handleNode st m (IfState.one false :: rest) .ppElse cf).1
        = [.directive (.ok .elseDir)]
    ∧ (handleNode st m (IfState.none :: rest) .ppElse cf).1
        = [.directive (.ok .elseDir)] := by
  refine ⟨?_, ?_, ?_, ?_⟩ <;> simp [handleNode]

theorem alookup_mem {α β : Type} [DecidableEq α] {k : α} {v : β} :
    ∀ {l : List (α × β)}, alookup k l = some v → (k, v) ∈ l
  | [], h => by simp [alookup] at h
  | (k', v') :: rest, h => by
    by_cases hk : k' = k
    · subst hk
      simp [alookup] at h
      subst h
      exact List.mem_cons_self _ _
    · simp [alookup, hk] at h
      exact List.mem_cons_of_mem _ (alookup_mem h)

@[simp]
theorem alookup_cons_self {α β : Type} [DecidableEq α] (k : α) (v : β) (l : List (α × β)) :
    alookup k ((k, v) :: l) = some v := by
  simp [alookup]

/-- A successful parseCached returns the requested id, caches exactly the
returned CST under it, and touches neither the id nor the canonical-path
tables. -/
theorem parseCached_ok (fs : FS) (P : String → Ast) (st : ProcFiles) (cp : Path)
    (fid : FileId) (log : List FsOp) (fid' : FileId) (ast : Ast) (st' : ProcFiles)
    (log' : List FsOp)
    (h : parseCached fs P st cp fid log = (.ok (fid', ast), st', log')) :
    fid' = fid ∧ alookup fid st'.file_cache = some ast
    ∧ st'.file_ids = st.file_ids ∧ st'.canonical_paths = st.canonical_paths := by
  unfold parseCached at h
  cases hc : alookup fid st.file_cache with
  | some ast0 =>
    rw [hc] at h
    injection h with h1 h2
    injection h1 with h3
    injection h3 with h4 h5
    injection h2 with h6 h7
    subst h4; subst h5; subst h6
    exact ⟨rfl, hc, rfl, rfl⟩
  | none =>
    rw [hc] at h
    cases hr : fs.read cp with
    | error e => rw [hr] at h; exact absurd h (by simp)
    | ok input =>
      rw [hr] at h
      injection h with h1 h2
      injection h1 with h3
      injection h3 with h4 h5
      injection h2 with h6 h7
      subst h4; subst h5; subst h6
      exact ⟨rfl, by simp, rfl, rfl⟩

/-- A successful parseWithCanonical on a well-formed table returns a
non-zero id bound to the canonical path, with the CST cached under it and
the canonical-path memo untouched. -/
theorem parseWithCanonical_ok (fs : FS) (P : String → Ast) (st : ProcFiles) (cp : Path)
    (log : List FsOp) (fid : FileId) (ast : Ast) (st' : ProcFiles) (log' : List FsOp)
    (hwf : wfFiles st)
    (h : parseWithCanonical fs P st cp log = (.ok (fid, ast), st', log')) :
    alookup cp st'.file_ids = some fid ∧ alookup fid st'.file_cache = some ast
    ∧ st'.canonical_paths = st.canonical_paths ∧ fid ≠ 0 := by
  unfold parseWithCanonical at h
  cases hi : alookup cp st.file_ids with
  | some fid0 =>
    rw [hi] at h
    obtain ⟨hfid, hcache, hids, hcanon⟩ := parseCached_ok fs P st cp fid0 log fid ast st' log' h
    subst hfid
    refine ⟨by rw [hids]; exact hi, hcache, hcanon, ?_⟩
    exact hwf.1 _ (alookup_mem hi)
  | none =>
    rw [hi] at h
    obtain ⟨hfid, hcache, hids, hcanon⟩ := parseCached_ok fs P _ cp _ log fid ast st' log' h
    subst hfid
    have hlen : st.file_ids.length % u32M = st.file_ids.length :=
      Nat.mod_eq_of_lt (Nat.lt_of_succ_lt hwf.2)
    have hfresh : (st.file_ids.length % u32M + 1) % u32M = st.file_ids.length + 1 := by
      rw [hlen]
      exact Nat.mod_eq_of_lt hwf.2
    refine ⟨?_, hcache, hcanon, ?_⟩
    · rw [hids]; simp
    · rw [hfresh]; exact Nat.succ_ne_zero _

/-- When parseWithCanonical has already bound the canonical path to an id
whose CST is cached, it returns them both without changing state or
performing filesystem calls. -/
theorem parseWithCanonical_hit (fs : FS) (P : String → Ast) (st : ProcFiles) (cp : Path)
    (log : List FsOp) (fid : FileId) (ast : Ast)
    (hf : alookup cp st.file_ids = some fid) (hc : alookup fid st.file_cache = some ast) :
    parseWithCanonical fs P st cp log = (.ok (fid, ast), st, log) := by
  simp [parseWithCanonical, parseCached, hf, hc]

/-- Dissection of a successful Processor::parse: the canonical path the
input resolved to is memoized for the input path, the id is bound to the
canonical path, the CST is cached under the id, and the id is non-zero. -/
theorem parse_ok_state (fs : FS) (P : String → Ast) (st0 : ProcFiles) (p : Path)
    (fid : FileId) (ast : Ast) (st1 : ProcFiles) (log : List FsOp)
    (hwf : wfFiles st0)
    (h1 : Processor.parse fs P st0 p = (.ok (fid, ast), st1, log)) :
    ∃ cp, canonicalOf fs st0 p = .ok cp
      ∧ alookup p st1.canonical_paths = some cp
      ∧ alookup cp st1.file_ids = some fid
      ∧ alookup fid st1.file_cache = some ast
      ∧ fid ≠ 0 := by
  unfold Processor.parse at h1
  cases hcp : alookup p st0.canonical_paths with
  | some cp =>
    rw [hcp] at h1
    obtain ⟨hids, hcache, hcanon, hnz⟩ :=
      parseWithCanonical_ok fs P st0 cp [] fid ast st1 log hwf h1
    exact ⟨cp, by simp [canonicalOf, hcp], by rw [hcanon]; exact hcp, hids, hcache, hnz⟩
  | none =>
    rw [hcp] at h1
    cases hfc : fs.canonicalize p with
    | error e => rw [hfc] at h1; exact absurd h1 (by simp)
    | ok cp =>
      rw [hfc] at h1
      have hwf' : wfFiles { st0 with canonical_paths := (p, cp) :: st0.canonical_paths } := hwf
      obtain ⟨hids, hcache, hcanon, hnz⟩ :=
        parseWithCanonical_ok fs P _ cp [.canonicalize p] fid ast st1 log hwf' h1
      refine ⟨cp, by simp [canonicalOf, hcp, hfc], ?_, hids, hcache, hnz⟩
      rw [hcanon]
      simp

/-- C8: after a successful Processor::parse of a path, a second call with
the same input path returns the same FileId and the same cached CST, with
the state unchanged and no filesystem call performed; the FileId is
non-zero; and any input path resolving to the same canonical path yields
that same FileId and CST. -/
theorem c8_parse_caching (fs : FS) (P : String → Ast) (st0 : ProcFiles) (p : Path)
    (fid : FileId) (ast : Ast) (st1 : ProcFiles) (log : List FsOp)
    (hwf : wfFiles st0)
    (h1 : Processor.parse fs P st0 p = (.ok (fid, ast), st1, log)) :
    Processor.parse fs P st1 p = (.ok (fid, ast), st1, [])
    ∧ fid ≠ 0
    ∧ ∀ q cp, canonicalOf fs st0 p = .ok cp → canonicalOf fs st1 q = .ok cp →
        (Processor.parse fs P st1 q).1 = .ok (fid, ast) := by
  obtain ⟨cp, hco, hcanon1, hids1, hcache1, hnz⟩ :=
    parse_ok_state fs P st0 p fid ast st1 log hwf h1
  refine ⟨?_, hnz, ?_⟩
  · unfold Processor.parse
    rw [hcanon1]
    exact parseWithCanonical_hit fs P st1 cp [] fid ast hids1 hcache1
  · intro q cpx hcp hcq
    rw [hco] at hcp
    injection hcp with hcp
    rw [← hcp] at hcq
    unfold canonicalOf at hcq
    unfold Processor.parse
    cases hq : alookup q st1.canonical_paths with
    | some cpq =>
      simp only [hq] at hcq
      injection hcq with hcq
      subst hcq
      simp only [hq]
      rw [parseWithCanonical_hit fs P st1 cpq [] fid ast hids1 hcache1]
    | none =>
      simp only [hq] at hcq
      simp only [hq, hcq]
      rw [parseWithCanonical_hit fs P
        { st1 with canonical_paths := (q, cp) :: st1.canonical_paths } cp
        [.canonicalize q] fid ast hids1 hcache1]

def fsDemo : FS := { canonicalize := fun _ => .ok "c", read := fun _ => .ok "src" }

def filesDemo : ProcFiles :=
  { file_cache := [(1, astEmpty)], file_ids := [("c", 1)], canonical_paths := [("a", "c")] }

theorem c8_parse_caching_witness :
    wfFiles emptyFiles
    ∧ Processor.parse fsDemo parseNone emptyFiles "a"
        = (.ok (1, astEmpty), filesDemo, [.canonicalize "a", .read "c"])
    ∧ (Processor.parse fsDemo parseNone filesDemo "a" = (.ok (1, astEmpty), filesDemo, [])
       ∧ (1 : FileId) ≠ 0
       ∧ ∀ q cp, canonicalOf fsDemo emptyFiles "a" = .ok cp →
           canonicalOf fsDemo filesDemo q = .ok cp →
           (Processor.parse fsDemo parseNone filesDemo q).1 = .ok (1, astEmpty)) := by
  have hwf : wfFiles emptyFiles := by
    constructor
    · intro pr hpr; simp [emptyFiles] at hpr
    · decide
  have h1 : Processor.parse fsDemo parseNone emptyFiles "a"
      = (.ok (1, astEmpty), filesDemo, [.canonicalize "a", .read "c"]) := by decide
  exact ⟨hwf, h1,
    c8_parse_caching fsDemo parseNone emptyFiles "a" 1 astEmpty filesDemo
      [.canonicalize "a", .read "c"] hwf h1⟩
